import Mathlib

/-!
Verification of the AI Dataset Annotation and Review Platform.

The repository ships a React frontend (src/frontend), documentation and
deployment scripts.  The FastAPI backend that owns the sample-status
workflow is not present under src/, so the workflow engine below is
modelled from the specification (spec.md sections 3 to 7) and from the
repository's README (status-transition diagram, role-permission table)
and docs/AUTHORIZATION.md.  Frontend behaviour (JWT utilities, API
service envelopes, route gating, page handlers) is embedded directly
from the JavaScript sources.
-/

namespace AnnotPlatform

/-! ## Workflow engine data model (spec-modelled) -/

/-- Modelled from the spec: sample lifecycle status, spec section 3 and the
README enum SampleStatus (pending, annotated, reviewed). -/
inductive Status where
  | Pending
  | Annotated
  | Reviewed
deriving DecidableEq, Repr

/-- Modelled from the spec: label enum, spec section 3 and the README enum
AnnotationLabel (positive, negative, neutral). -/
inductive Label where
  | Positive
  | Negative
  | Neutral
deriving DecidableEq, Repr

/-- Modelled from the spec: review decision enum, spec section 3 and the
README enum ReviewDecision (approved, rejected). -/
inductive Decision where
  | Approved
  | Rejected
deriving DecidableEq, Repr

/-- Modelled from the spec: user roles, README enum UserRole. -/
inductive Role where
  | Admin
  | Annotator
  | Reviewer
deriving DecidableEq, Repr

/-- Modelled from the spec: workflow capabilities named in spec section 4.1
(the "annotate" and "review" capabilities). -/
inductive Capability where
  | annotate
  | review
deriving DecidableEq, Repr

/-- Modelled from the spec: role capability sets.  The README role-permission
table grants Submit Annotation to annotators only and Review Annotation to
reviewers only, matching the docs/AUTHORIZATION.md dependency messages
("Only annotators can submit annotations", "Only reviewers can review
annotations").  The claims proved below are insensitive to the exact
mapping: they only distinguish roles that have a capability from roles
that lack it. -/
def roleCapabilities : Role → List Capability
  | .Admin => []
  | .Annotator => [.annotate]
  | .Reviewer => [.review]

/-- Whether a role's capability set includes a capability. -/
def hasCapability (r : Role) (c : Capability) : Bool :=
  (roleCapabilities r).contains c

/-- Modelled from the spec: DataSample row, spec section 3. -/
structure Sample where
  id : Nat
  projectId : Nat
  textContent : String
  status : Status
  createdAt : Nat
deriving DecidableEq, Repr

/-- Modelled from the spec: Annotation row, spec section 3. -/
structure AnnotationRow where
  id : Nat
  sampleId : Nat
  annotatorId : Nat
  label : Label
  createdAt : Nat
deriving DecidableEq, Repr

/-- Modelled from the spec: Review row, spec section 3. -/
structure ReviewRow where
  id : Nat
  annotationId : Nat
  reviewerId : Nat
  decision : Decision
  feedback : Option String
  createdAt : Nat
deriving DecidableEq, Repr

/-- Modelled from the spec: the persistence store visible to the workflow
engine — the DataSample table and its two dependent child tables, plus an
id allocator. -/
structure DB where
  samples : List Sample
  annotations : List AnnotationRow
  reviews : List ReviewRow
  nextId : Nat
deriving DecidableEq, Repr

/-- Modelled from the spec: error kinds of the workflow engine, spec
section 7. -/
inductive WError where
  | NotFound
  | InvalidState
  | ValidationError
  | Forbidden
deriving DecidableEq, Repr

/-- Look up a sample row by id. -/
def findSample (db : DB) (sid : Nat) : Option Sample :=
  db.samples.find? (fun s => s.id == sid)

/-- Look up an annotation row by id. -/
def findAnnotationRow (db : DB) (aid : Nat) : Option AnnotationRow :=
  db.annotations.find? (fun a => a.id == aid)

/-- Set the status of the sample(s) with the given id. -/
def setStatus (l : List Sample) (sid : Nat) (st : Status) : List Sample :=
  l.map (fun s => if s.id == sid then { s with status := st } else s)

/-- Status of the sample with the given id, when present. -/
def statusOf (db : DB) (sid : Nat) : Option Status :=
  (findSample db sid).map Sample.status

/-- Modelled from the spec: SubmitAnnotation(sample_id, actor, label),
spec section 4.1.  Preconditions: the actor's role capability set includes
"annotate", the sample exists and its status is Pending.  Effect: create
an Annotation row and set the sample status to Annotated, as one atomic
transaction; on any error the returned store is the unchanged input store
(transaction rollback). -/
def submitAnnotationTx (db : DB) (sampleId actorId : Nat) (role : Role)
    (label : Label) (now : Nat) : DB × Except WError AnnotationRow :=
  if hasCapability role .annotate then
    match findSample db sampleId with
    | none => (db, .error .NotFound)
    | some s =>
      if s.status = .Pending then
        let a : AnnotationRow := ⟨db.nextId, sampleId, actorId, label, now⟩
        ({ db with
            samples := setStatus db.samples sampleId .Annotated
            annotations := db.annotations ++ [a]
            nextId := db.nextId + 1 }, .ok a)
      else (db, .error .InvalidState)
  else (db, .error .Forbidden)

/-- Whitespace characters recognised by JavaScript trimming (the ASCII
ones; the exotic Unicode space characters are not modelled). -/
def isJsWsChar (c : Char) : Bool :=
  c == ' ' || c == '\t' || c == '\n' || c == '\x0d' || c == '\x0b' || c == '\x0c'

/-- Model of JavaScript String.prototype.trim: drop leading and trailing
whitespace. -/
def jsTrim (s : String) : String :=
  ⟨((s.data.dropWhile isJsWsChar).reverse.dropWhile isJsWsChar).reverse⟩

/-- Modelled from the spec: "feedback must be non-empty after trimming
whitespace" (spec section 4.1); a missing or whitespace-only feedback is
blank. -/
def feedbackBlank : Option String → Bool
  | none => true
  | some f => jsTrim f == ""

/-- Modelled from the spec: SubmitReview(annotation_id, actor, decision,
feedback), spec section 4.1.  Preconditions: the actor's role capability
set includes "review", the annotation exists, the owning sample has
status Annotated, and a Rejected decision carries non-blank feedback.
Effect: create a Review row and move the owning sample to Reviewed
(Approved) or back to Pending (Rejected), as one atomic transaction; on
any error the returned store is the unchanged input store. -/
def submitReviewTx (db : DB) (annId actorId : Nat) (role : Role)
    (decision : Decision) (feedback : Option String) (now : Nat) :
    DB × Except WError ReviewRow :=
  if hasCapability role .review then
    match findAnnotationRow db annId with
    | none => (db, .error .NotFound)
    | some a =>
      match findSample db a.sampleId with
      | none => (db, .error .NotFound)
      | some s =>
        if s.status = .Annotated then
          if decision = .Rejected ∧ feedbackBlank feedback then
            (db, .error .ValidationError)
          else
            let r : ReviewRow := ⟨db.nextId, annId, actorId, decision, feedback, now⟩
            ({ db with
                samples := setStatus db.samples a.sampleId
                  (if decision = .Approved then .Reviewed else .Pending)
                reviews := db.reviews ++ [r]
                nextId := db.nextId + 1 }, .ok r)
        else (db, .error .InvalidState)
  else (db, .error .Forbidden)

/-- Modelled from the spec: the data-model invariant of spec section 3 —
no sample may be left Annotated without an Annotation, or Reviewed
without an approving Review. -/
def Inv (db : DB) : Prop :=
  ∀ s ∈ db.samples,
    (s.status = .Annotated → ∃ a ∈ db.annotations, a.sampleId = s.id) ∧
    (s.status = .Reviewed → ∃ a ∈ db.annotations, ∃ r ∈ db.reviews,
      a.sampleId = s.id ∧ r.annotationId = a.id ∧ r.decision = .Approved)

/-- A store with one Pending sample, used for the round-trip scenario of
spec section 8. -/
def demoDB : DB :=
  ⟨[⟨0, 100, "sample text", .Pending, 0⟩], [], [], 1⟩

/-- Modelled from the spec: the round-trip scenario of spec section 8 —
submitAnnotation, reject with feedback, submitAnnotation again, approve —
returning the final store when every step succeeds. -/
def roundTripFinal : Option DB :=
  let r1 := submitAnnotationTx demoDB 0 1 .Annotator .Positive 1
  match r1.2 with
  | .error _ => none
  | .ok a1 =>
    let r2 := submitReviewTx r1.1 a1.id 2 .Reviewer .Rejected (some "needs rework") 2
    match r2.2 with
    | .error _ => none
    | .ok _ =>
      let r3 := submitAnnotationTx r2.1 0 1 .Annotator .Neutral 3
      match r3.2 with
      | .error _ => none
      | .ok a2 =>
        let r4 := submitReviewTx r3.1 a2.id 2 .Reviewer .Approved none 4
        match r4.2 with
        | .error _ => none
        | .ok _ => some r4.1

/-! ## Frontend: authentication context and route gating

Embedded from src/frontend/src/App.jsx, the ProtectedRoute component and
the AuthContext value documented in the repository (user, loading,
isAuthenticated, hasRole, hasAnyRole). -/

/-- The user object held by AuthContext; only its role matters for route
gating (`user?.role`). -/
structure AuthUser where
  role : Option String
deriving DecidableEq, Repr

/-- AuthContext state: the user object, whether a token is stored, and the
loading flag. -/
structure AuthCtx where
  user : Option AuthUser
  hasToken : Bool
  loading : Bool
deriving DecidableEq, Repr

/-- AuthContext `isAuthenticated: !!user && !!token`. -/
def isAuthenticated (c : AuthCtx) : Bool :=
  c.user.isSome && c.hasToken

/-- AuthContext `hasRole = (role) => user?.role === role`. -/
def hasRole (c : AuthCtx) (r : String) : Bool :=
  (c.user.bind AuthUser.role) == some r

/-- AuthContext `hasAnyRole = (roles) => roles.includes(user?.role)`; with
no user, `user?.role` is undefined and is not contained in a list of role
strings. -/
def hasAnyRole (c : AuthCtx) (roles : List String) : Bool :=
  match c.user.bind AuthUser.role with
  | some r => roles.contains r
  | none => false

/-- What the ProtectedRoute component renders. -/
inductive RouteOutcome where
  | loadingView
  | redirectLogin
  | redirectDashboard
  | render
deriving DecidableEq, Repr

/-- Embedded from ProtectedRoute: show the loading view while loading,
redirect to /login when unauthenticated, redirect to /dashboard when the
role check fails, otherwise render the children. -/
def protectedRoute (c : AuthCtx) (requiredRole : Option String)
    (allowedRoles : Option (List String)) : RouteOutcome :=
  if c.loading then .loadingView
  else if !(isAuthenticated c) || c.user.isNone then .redirectLogin
  else
    match allowedRoles with
    | some rs =>
      if rs.length > 0 then
        if !(hasAnyRole c rs) then .redirectDashboard else .render
      else
        match requiredRole with
        | some r => if !(hasRole c r) then .redirectDashboard else .render
        | none => .render
    | none =>
      match requiredRole with
      | some r => if !(hasRole c r) then .redirectDashboard else .render
      | none => .render

/-- Embedded from App.jsx: the /annotation route is wrapped in
ProtectedRoute with `allowedRoles = ['annotator', 'admin']`. -/
def annotationRouteAllowedRoles : List String := ["annotator", "admin"]

/-- Embedded from App.jsx: the /review route is wrapped in ProtectedRoute
with `allowedRoles = ['reviewer', 'admin']`. -/
def reviewRouteAllowedRoles : List String := ["reviewer", "admin"]

/-! ## Frontend: sample service endpoint and pages -/

/-- Embedded from src/frontend/src/services/sampleService.js
getSamplesByStatus: the endpoint is `/samples/status/` followed by the
status, with the query string appended after a question mark when it is
non-empty. -/
def getSamplesByStatusEndpoint (status queryString : String) : String :=
  if queryString == "" then "/samples/status/" ++ status
  else "/samples/status/" ++ status ++ "?" ++ queryString

/-- Embedded from src/frontend/src/pages/Annotation.jsx: the page fetches
`sampleService.getSamplesByStatus('pending')` with no extra parameters. -/
def annotationPageFetchEndpoint : String :=
  getSamplesByStatusEndpoint "pending" ""

/-- Body of a review POST built by reviewService. -/
structure ReviewRequestBody where
  annotation_id : String
  feedback : Option String
deriving DecidableEq, Repr

/-- Embedded from src/frontend/src/services/reviewService.js
approveAnnotation: POST to /reviews/approve with the annotation id and
the (optional, default null) feedback. -/
def approveRequest (annotationId : String) (feedback : Option String) :
    String × ReviewRequestBody :=
  ("/reviews/approve", ⟨annotationId, feedback⟩)

/-- Embedded from src/frontend/src/services/reviewService.js
rejectAnnotation: POST to /reviews/reject with the annotation id and the
required feedback. -/
def rejectRequest (annotationId : String) (feedback : Option String) :
    String × ReviewRequestBody :=
  ("/reviews/reject", ⟨annotationId, feedback⟩)

/-- Embedded from the Review page handleApprove: does nothing without a
selected row, otherwise calls approveAnnotation with `feedback || null`
(an empty feedback string becomes null).  Returns the issued request, or
none when no request is made. -/
def handleApprove (selected : Option String) (feedback : String) :
    Option (String × ReviewRequestBody) :=
  match selected with
  | none => none
  | some annId =>
    some (approveRequest annId (if feedback == "" then none else some feedback))

/-- Embedded from the Review page handleReject: when no row is selected or
`feedback.trim()` is empty it shows "Feedback is required for rejection"
and returns without calling the API; otherwise it calls rejectAnnotation
with the feedback.  Returns the issued request, or none when no request
is made. -/
def handleReject (selected : Option String) (feedback : String) :
    Option (String × ReviewRequestBody) :=
  match selected with
  | none => none
  | some annId =>
    if jsTrim feedback == "" then none
    else some (rejectRequest annId (some feedback))

/-! ## JSON values

A model of the JavaScript JSON values flowing through the frontend:
decoded JWT payloads and HTTP response bodies. -/

/-- JSON value; a number is modelled exactly as a scaled decimal
`mant * 10 ^ pow10`, the form a JSON numeric literal denotes. -/
inductive Json where
  | null
  | bool (b : Bool)
  | num (mant : Int) (pow10 : Int)
  | str (s : String)
  | arr (elems : List Json)
  | obj (fields : List (String × Json))
deriving Repr

/-- Comparison of scaled decimals: `m1 * 10 ^ e1 ≤ m2 * 10 ^ e2`, decided
by bringing both sides to the smaller exponent. -/
def decNumLe (m1 e1 m2 e2 : Int) : Bool :=
  if e1 ≤ e2 then decide (m1 ≤ m2 * 10 ^ (e2 - e1).toNat)
  else decide (m1 * 10 ^ (e1 - e2).toNat ≤ m2)

/-- Property access `j[key]` on a JSON value: undefined (none) on
non-objects; JSON.parse keeps the last of duplicate keys, so the lookup
takes the last binding. -/
def jsGet (j : Json) (key : String) : Option Json :=
  match j with
  | .obj fields => (fields.reverse.find? (fun p => p.1 == key)).map (fun p => p.2)
  | _ => none

/-- JavaScript truthiness of a JSON value. -/
def jsTruthy : Json → Bool
  | .null => false
  | .bool b => b
  | .num m _ => m != 0
  | .str s => s != ""
  | .arr _ => true
  | .obj _ => true

/-- Decimal digit character. -/
def digitChar (n : Nat) : Char :=
  Char.ofNat (48 + n)

/-- Decimal digits of a natural number, most significant first. -/
def natDigits (n : Nat) : List Char :=
  if _h : n < 10 then [digitChar n]
  else natDigits (n / 10) ++ [digitChar (n % 10)]
termination_by n
decreasing_by exact Nat.div_lt_self (by omega) (by omega)

/-- Decimal representation of a natural number. -/
def natRepr (n : Nat) : String :=
  ⟨natDigits n⟩

/-- Decimal representation of an integer. -/
def intRepr (i : Int) : String :=
  if i < 0 then "-" ++ natRepr i.natAbs else natRepr i.natAbs

/-- Textual representation of a scaled-decimal JSON number (JavaScript
prints numbers in decimal; a non-zero scale is rendered in exponent
notation). -/
def decNumRepr (m e : Int) : String :=
  intRepr m ++ (if e == 0 then "" else "e" ++ intRepr e)

/-- Escape a character for a JSON string literal (quote and backslash). -/
def escapeJsonChar (c : Char) : List Char :=
  if c = '"' ∨ c = '\\' then ['\\', c] else [c]

/-- Escape a string for a JSON string literal. -/
def escapeJsonString (s : String) : String :=
  ⟨s.data.foldr (fun c acc => escapeJsonChar c ++ acc) []⟩

mutual

/-- Model of JSON.stringify on a JSON value. -/
def stringify : Json → String
  | .null => "null"
  | .bool true => "true"
  | .bool false => "false"
  | .num m e => decNumRepr m e
  | .str s => "\"" ++ escapeJsonString s ++ "\""
  | .arr es => "[" ++ stringifyElems es ++ "]"
  | .obj fs => "\x7b" ++ stringifyFields fs ++ "\x7d"

/-- Comma-separated serialization of array elements. -/
def stringifyElems : List Json → String
  | [] => ""
  | [e] => stringify e
  | e :: es => stringify e ++ "," ++ stringifyElems es

/-- Comma-separated serialization of object members. -/
def stringifyFields : List (String × Json) → String
  | [] => ""
  | [(k, v)] => "\"" ++ escapeJsonString k ++ "\":" ++ stringify v
  | (k, v) :: fs =>
    "\"" ++ escapeJsonString k ++ "\":" ++ stringify v ++ "," ++ stringifyFields fs

end

/-! ## JSON parsing (model of JSON.parse) -/

/-- JSON whitespace characters. -/
def isJsonWs (c : Char) : Bool :=
  c == ' ' || c == '\t' || c == '\n' || c == '\r'

/-- Drop leading JSON whitespace. -/
def skipWs : List Char → List Char
  | [] => []
  | c :: cs => if isJsonWs c then skipWs cs else c :: cs

/-- Value of a hexadecimal digit. -/
def hexVal (c : Char) : Option Nat :=
  let n := c.toNat
  if 48 ≤ n ∧ n ≤ 57 then some (n - 48)
  else if 97 ≤ n ∧ n ≤ 102 then some (n - 87)
  else if 65 ≤ n ∧ n ≤ 70 then some (n - 55)
  else none

/-- Parse the body of a JSON string literal after the opening quote,
accumulating characters in reverse; handles the JSON escapes, combines
surrogate-pair escapes into one code point, and rejects control
characters and lone surrogates. -/
def parseStringBody : List Char → List Char → Option (String × List Char)
  | [], _ => none
  | '"' :: cs, acc => some (⟨acc.reverse⟩, cs)
  | '\\' :: '"' :: cs, acc => parseStringBody cs ('"' :: acc)
  | '\\' :: '\\' :: cs, acc => parseStringBody cs ('\\' :: acc)
  | '\\' :: '/' :: cs, acc => parseStringBody cs ('/' :: acc)
  | '\\' :: 'b' :: cs, acc => parseStringBody cs ('\x08' :: acc)
  | '\\' :: 'f' :: cs, acc => parseStringBody cs ('\x0c' :: acc)
  | '\\' :: 'n' :: cs, acc => parseStringBody cs ('\n' :: acc)
  | '\\' :: 'r' :: cs, acc => parseStringBody cs ('\x0d' :: acc)
  | '\\' :: 't' :: cs, acc => parseStringBody cs ('\t' :: acc)
  | '\\' :: 'u' :: h1 :: h2 :: h3 :: h4 :: cs, acc =>
    (match hexVal h1, hexVal h2, hexVal h3, hexVal h4 with
     | some a, some b, some c', some d =>
       let cp := ((a * 16 + b) * 16 + c') * 16 + d
       if 0xD800 ≤ cp ∧ cp ≤ 0xDBFF then
         match cs with
         | '\\' :: 'u' :: g1 :: g2 :: g3 :: g4 :: cs2 =>
           (match hexVal g1, hexVal g2, hexVal g3, hexVal g4 with
            | some a', some b', some c'', some d' =>
              let lo := ((a' * 16 + b') * 16 + c'') * 16 + d'
              if 0xDC00 ≤ lo ∧ lo ≤ 0xDFFF then
                parseStringBody cs2
                  (Char.ofNat (0x10000 + (cp - 0xD800) * 1024 + (lo - 0xDC00)) :: acc)
              else none
            | _, _, _, _ => none)
         | _ => none
       else if 0xDC00 ≤ cp ∧ cp ≤ 0xDFFF then none
       else parseStringBody cs (Char.ofNat cp :: acc)
     | _, _, _, _ => none)
  | '\\' :: _, _ => none
  | c :: cs, acc => if c.toNat < 32 then none else parseStringBody cs (c :: acc)

/-- Take a maximal prefix of decimal digits. -/
def takeDigits : List Char → List Char × List Char
  | [] => ([], [])
  | c :: cs =>
    if 48 ≤ c.toNat ∧ c.toNat ≤ 57 then
      let p := takeDigits cs
      (c :: p.1, p.2)
    else ([], c :: cs)

/-- Numeric value of a digit list. -/
def digitsVal (ds : List Char) : Nat :=
  ds.foldl (fun acc c => acc * 10 + (c.toNat - 48)) 0

/-- Parse an optional fraction part after the integer part, folding the
fraction digits into the mantissa and lowering the power of ten. -/
def parseFrac (intPart : Nat) (cs : List Char) :
    Option ((Int × Int) × List Char) :=
  match cs with
  | '.' :: rest =>
    (match takeDigits rest with
     | ([], _) => none
     | (ds, rest2) =>
       some (((intPart * 10 ^ ds.length + digitsVal ds : Nat), -(ds.length : Int)), rest2))
  | _ => some (((intPart : Int), 0), cs)

/-- Parse an optional exponent part after the mantissa, adjusting the power
of ten. -/
def parseExp (mant e : Int) (cs : List Char) : Option ((Int × Int) × List Char) :=
  match cs with
  | c :: rest =>
    if c = 'e' ∨ c = 'E' then
      let p : Bool × List Char :=
        match rest with
        | '+' :: r => (false, r)
        | '-' :: r => (true, r)
        | _ => (false, rest)
      match takeDigits p.2 with
      | ([], _) => none
      | (ds, rest2) =>
        let ex : Int := (digitsVal ds : Int)
        some ((mant, e + if p.1 then -ex else ex), rest2)
    else some ((mant, e), cs)
  | [] => some ((mant, e), cs)

/-- Parse a JSON number: optional minus, an integer part without leading
zeros, optional fraction and exponent; the result is the scaled decimal
the literal denotes. -/
def parseNumber (cs : List Char) : Option ((Int × Int) × List Char) :=
  let p : Bool × List Char :=
    match cs with
    | '-' :: rest => (true, rest)
    | _ => (false, cs)
  match p.2 with
  | c :: rest =>
    let intRes : Option (Nat × List Char) :=
      if c.toNat = 48 then some (0, rest)
      else if 49 ≤ c.toNat ∧ c.toNat ≤ 57 then
        let q := takeDigits rest
        some (digitsVal (c :: q.1), q.2)
      else none
    match intRes with
    | none => none
    | some (ip, rest2) =>
      match parseFrac ip rest2 with
      | none => none
      | some (mant, rest3) =>
        match parseExp mant.1 mant.2 rest3 with
        | none => none
        | some (v, rest4) => some ((if p.1 then -v.1 else v.1, v.2), rest4)
  | [] => none

mutual

/-- Fuel-bounded parser for one JSON value. -/
def parseValue : Nat → List Char → Option (Json × List Char)
  | 0, _ => none
  | fuel + 1, cs =>
    match skipWs cs with
    | [] => none
    | c :: rest =>
      if c = 'n' then
        match rest with
        | 'u' :: 'l' :: 'l' :: rest2 => some (.null, rest2)
        | _ => none
      else if c = 't' then
        match rest with
        | 'r' :: 'u' :: 'e' :: rest2 => some (.bool true, rest2)
        | _ => none
      else if c = 'f' then
        match rest with
        | 'a' :: 'l' :: 's' :: 'e' :: rest2 => some (.bool false, rest2)
        | _ => none
      else if c = '"' then
        (parseStringBody rest []).map (fun p => (.str p.1, p.2))
      else if c = '[' then
        match skipWs rest with
        | ']' :: rest2 => some (.arr [], rest2)
        | rest1 => (parseElements fuel rest1).map (fun p => (.arr p.1, p.2))
      else if c = '\x7b' then
        match skipWs rest with
        | '\x7d' :: rest2 => some (.obj [], rest2)
        | rest1 => (parseMembers fuel rest1).map (fun p => (.obj p.1, p.2))
      else
        (parseNumber (c :: rest)).map (fun p => (.num p.1.1 p.1.2, p.2))

/-- Fuel-bounded parser for the elements of a non-empty JSON array, up to
and including the closing bracket. -/
def parseElements : Nat → List Char → Option (List Json × List Char)
  | 0, _ => none
  | fuel + 1, cs =>
    match parseValue fuel cs with
    | none => none
    | some (v, rest) =>
      match skipWs rest with
      | ',' :: rest2 => (parseElements fuel rest2).map (fun p => (v :: p.1, p.2))
      | ']' :: rest2 => some ([v], rest2)
      | _ => none

/-- Fuel-bounded parser for the members of a non-empty JSON object, up to
and including the closing brace. -/
def parseMembers : Nat → List Char → Option (List (String × Json) × List Char)
  | 0, _ => none
  | fuel + 1, cs =>
    match skipWs cs with
    | '"' :: rest =>
      match parseStringBody rest [] with
      | none => none
      | some (k, rest1) =>
        match skipWs rest1 with
        | ':' :: rest2 =>
          match parseValue fuel rest2 with
          | none => none
          | some (v, rest3) =>
            match skipWs rest3 with
            | ',' :: rest4 => (parseMembers fuel rest4).map (fun p => ((k, v) :: p.1, p.2))
            | '\x7d' :: rest4 => some ([(k, v)], rest4)
            | _ => none
        | _ => none
    | _ => none

end

/-- Model of JSON.parse: parse one value and require that only whitespace
remains. -/
def parseJson (s : String) : Option Json :=
  match parseValue (2 * s.length + 4) s.data with
  | none => none
  | some (v, rest) => if skipWs rest = [] then some v else none

/-! ## Base64 and UTF-8 decoding (models of atob and decodeURIComponent) -/

/-- Value of a base64 alphabet character. -/
def b64Val (c : Char) : Option Nat :=
  let n := c.toNat
  if 65 ≤ n ∧ n ≤ 90 then some (n - 65)
  else if 97 ≤ n ∧ n ≤ 122 then some (n - 71)
  else if 48 ≤ n ∧ n ≤ 57 then some (n + 4)
  else if c = '+' then some 62
  else if c = '/' then some 63
  else none

/-- ASCII whitespace stripped by forgiving-base64 decoding. -/
def isAsciiWs (c : Char) : Bool :=
  c == ' ' || c == '\t' || c == '\n' || c == '\x0c' || c == '\x0d'

/-- Decode whole base64 quartets into bytes; a trailing pair or triple
yields one or two bytes (extra bits discarded), a single trailing
character is an error. -/
def b64Groups : List Char → Option (List Nat)
  | [] => some []
  | [c1, c2] =>
    (match b64Val c1, b64Val c2 with
     | some v1, some v2 => some [(v1 * 64 + v2) / 16]
     | _, _ => none)
  | [c1, c2, c3] =>
    (match b64Val c1, b64Val c2, b64Val c3 with
     | some v1, some v2, some v3 =>
       let n := (v1 * 64 + v2) * 64 + v3
       some [n / 1024, n / 4 % 256]
     | _, _, _ => none)
  | c1 :: c2 :: c3 :: c4 :: rest =>
    (match b64Val c1, b64Val c2, b64Val c3, b64Val c4 with
     | some v1, some v2, some v3, some v4 =>
       let n := ((v1 * 64 + v2) * 64 + v3) * 64 + v4
       (b64Groups rest).map (fun bs => n / 65536 :: n / 256 % 256 :: n % 256 :: bs)
     | _, _, _, _ => none)
  | [_] => none

/-- Model of window.atob (forgiving-base64 decode): strip ASCII
whitespace, strip up to two trailing padding characters when the length
is a multiple of four, fail when the remaining length is 1 mod 4 or a
character is outside the alphabet, otherwise produce the bytes. -/
def atob (s : String) : Option (List Nat) :=
  let cs := s.data.filter (fun c => !(isAsciiWs c))
  let cs2 :=
    if cs.length % 4 == 0 then
      match cs.reverse with
      | '=' :: '=' :: rest => rest.reverse
      | '=' :: rest => rest.reverse
      | _ => cs
    else cs
  if cs2.length % 4 == 1 then none
  else b64Groups cs2

/-- Whether a byte is a UTF-8 continuation byte. -/
def isCont (b : Nat) : Bool :=
  decide (128 ≤ b ∧ b ≤ 191)

/-- Strict UTF-8 decoding of a byte list, rejecting overlong encodings,
surrogate code points and values above U+10FFFF — the sequences on which
decodeURIComponent throws URIError. -/
def utf8Decode : List Nat → Option (List Char)
  | [] => some []
  | b1 :: rest =>
    if b1 ≤ 127 then
      (utf8Decode rest).map (fun cs => Char.ofNat b1 :: cs)
    else if 194 ≤ b1 ∧ b1 ≤ 223 then
      match rest with
      | b2 :: rest2 =>
        if isCont b2 then
          (utf8Decode rest2).map (fun cs => Char.ofNat ((b1 - 192) * 64 + (b2 - 128)) :: cs)
        else none
      | _ => none
    else if 224 ≤ b1 ∧ b1 ≤ 239 then
      match rest with
      | b2 :: b3 :: rest2 =>
        if isCont b2 && isCont b3 then
          let cp := (b1 - 224) * 4096 + (b2 - 128) * 64 + (b3 - 128)
          if 2048 ≤ cp ∧ ¬(55296 ≤ cp ∧ cp ≤ 57343) then
            (utf8Decode rest2).map (fun cs => Char.ofNat cp :: cs)
          else none
        else none
      | _ => none
    else if 240 ≤ b1 ∧ b1 ≤ 244 then
      match rest with
      | b2 :: b3 :: b4 :: rest2 =>
        if isCont b2 && isCont b3 && isCont b4 then
          let cp := (b1 - 240) * 262144 + (b2 - 128) * 4096 + (b3 - 128) * 64 + (b4 - 128)
          if 65536 ≤ cp ∧ cp ≤ 1114111 then
            (utf8Decode rest2).map (fun cs => Char.ofNat cp :: cs)
          else none
        else none
      | _ => none
    else none

/-! ## JWT utilities

Embedded from src/frontend/src/utils/jwt.js. -/

/-- The decoding pipeline applied to the payload part: translate base64url
to base64 characters, atob, percent-encode every byte and
decodeURIComponent (equivalent to strict UTF-8 decoding of the bytes),
then JSON.parse; any exception is caught by decodeToken. -/
def base64UrlToJson (payload : String) : Option Json :=
  let base64 : String :=
    ⟨payload.data.map (fun c => if c = '-' then '+' else if c = '_' then '/' else c)⟩
  match atob base64 with
  | none => none
  | some bytes =>
    match utf8Decode bytes with
    | none => none
    | some chars => parseJson ⟨chars⟩

/-- Splitting helper: accumulate the current field until the separator. -/
def jsSplitAux (sep : Char) : List Char → List Char → List String
  | [], acc => [⟨acc.reverse⟩]
  | c :: cs, acc =>
    if c = sep then ⟨acc.reverse⟩ :: jsSplitAux sep cs []
    else jsSplitAux sep cs (c :: acc)

/-- Model of JavaScript String.prototype.split with a one-character
separator, as used by `token.split('.')`; adjacent separators produce
empty fields and the empty string yields one empty field. -/
def jsSplit (sep : Char) (s : String) : List String :=
  jsSplitAux sep s.data []

/-- Embedded from decodeToken: null for a missing or empty token, null
unless the token has exactly three dot-separated parts, otherwise the
decoded middle part, with every decoding exception caught and turned
into null. -/
def decodeToken (token : Option String) : Option Json :=
  match token with
  | none => none
  | some t =>
    if t = "" then none
    else
      match jsSplit '.' t with
      | [_, payload, _] => base64UrlToJson payload
      | _ => none

/-- JavaScript numeric coercion of a JSON value to a scaled decimal; none
models NaN.  String coercion parses the trimmed text as a number (the
JavaScript-only forms such as hexadecimal or Infinity are approximated as
NaN); arrays and objects are approximated as NaN. -/
def toNumber : Json → Option (Int × Int)
  | .null => some (0, 0)
  | .bool b => some (if b then 1 else 0, 0)
  | .num m e => some (m, e)
  | .str s =>
    let t := jsTrim s
    if t = "" then some (0, 0)
    else
      match parseNumber t.data with
      | some (v, []) => some v
      | _ => none
  | .arr _ => none
  | .obj _ => none

/-- Embedded from isTokenExpired: true when the token does not decode or
its payload has no truthy exp claim; otherwise whether the current time
in milliseconds has reached exp times 1000 (a comparison against NaN is
false). -/
def isTokenExpired (token : Option String) (now : Int) : Bool :=
  match decodeToken token with
  | none => true
  | some decoded =>
    match jsGet decoded "exp" with
    | none => true
    | some e =>
      if !(jsTruthy e) then true
      else
        match toNumber e with
        | none => false
        | some v => decNumLe (v.1 * 1000) v.2 now 0

/-- The user object built by getUserFromToken: id from the sub claim
(undefined when absent), email and role from the corresponding claims
with `|| null` applied. -/
structure UserInfo where
  id : Option Json
  email : Json
  role : Json
deriving Repr

/-- JavaScript `v || null`: the value when truthy, otherwise null. -/
def orNull (v : Option Json) : Json :=
  match v with
  | some j => if jsTruthy j then j else .null
  | none => .null

/-- Embedded from getUserFromToken: null when the token does not decode or
is expired, otherwise the object with id from the sub claim and email and
role defaulted to null via `||`. -/
def getUserFromToken (token : Option String) (now : Int) : Option UserInfo :=
  match decodeToken token with
  | none => none
  | some decoded =>
    if isTokenExpired token now then none
    else some ⟨jsGet decoded "sub", orNull (jsGet decoded "email"), orNull (jsGet decoded "role")⟩

/-! ## API service layer and error handling

Embedded from src/frontend/src/services/apiService.js and
src/frontend/src/utils/errorHandler.js. -/

/-- An Axios HTTP response: status code and parsed JSON body. -/
structure AxiosResponse where
  status : Nat
  data : Json
deriving Repr

/-- An Axios error: the response when the server answered, and whether a
request object exists (request sent but no response means network
error). -/
structure AxiosError where
  response : Option AxiosResponse
  request : Bool
deriving Repr

/-- Template-literal coercion of a JSON value to text: a string is itself;
other values are approximated by their JSON text. -/
def jsDisplay : Json → String
  | .str s => s
  | j => stringify j

/-- Embedded from errorHandler.js getErrorMessage: the statusMessages
table, falling back to an `Error <status>: <data?.message or default>`
text. -/
def statusCodeMessage (status : Nat) (data : Json) : String :=
  if status = 400 then "Invalid request. Please check your input."
  else if status = 401 then "Authentication required. Please login."
  else if status = 403 then "You do not have permission to perform this action."
  else if status = 404 then "Resource not found."
  else if status = 409 then "Conflict. This resource already exists."
  else if status = 422 then "Validation error. Please check your input."
  else if status = 500 then "Server error. Please try again later."
  else if status = 503 then "Service unavailable. Please try again later."
  else
    "Error " ++ natRepr status ++ ": " ++
      (match jsGet data "message" with
       | some m => if jsTruthy m then jsDisplay m else "An error occurred"
       | none => "An error occurred")

/-- Embedded from errorHandler.js getErrorMessage: network errors get a
fixed message; a truthy `data?.detail` is returned directly when it is a
string and JSON.stringify-ed otherwise; everything else falls back to the
status-code table. -/
def getErrorMessage (e : AxiosError) : String :=
  match e.response with
  | none =>
    if e.request then "Network error. Please check your connection and try again."
    else "An unexpected error occurred. Please try again."
  | some r =>
    match jsGet r.data "detail" with
    | some d =>
      if jsTruthy d then
        match d with
        | .str s => s
        | _ => stringify d
      else statusCodeMessage r.status r.data
    | none => statusCodeMessage r.status r.data

/-- Embedded from errorHandler.js isNetworkError: no response but a
request object. -/
def isNetworkError (e : AxiosError) : Bool :=
  e.response.isNone && e.request

/-- Embedded from errorHandler.js isAuthError: response status 401 or
403. -/
def isAuthError (e : AxiosError) : Bool :=
  match e.response with
  | some r => r.status == 401 || r.status == 403
  | none => false

/-- The result envelope returned by every ApiService method.  Success
envelopes carry data and status; error envelopes carry the message, the
status (null for network errors) and the two classification flags. -/
structure Envelope where
  success : Bool
  data : Option Json
  error : Option String
  status : Option Nat
  isNetworkError : Option Bool
  isAuthError : Option Bool
deriving Repr

/-- Embedded from ApiService.handleError: build the failure envelope from
getErrorMessage, `error.response?.status || null` and the two error
classifiers. -/
def handleError (e : AxiosError) : Envelope :=
  ⟨false, none, some (getErrorMessage e), e.response.map AxiosResponse.status,
    some (isNetworkError e), some (isAuthError e)⟩

namespace ApiService

/-- Embedded from ApiService.get: await the axios call (its outcome is the
argument); on success return the success envelope, on any error return
handleError of the error. -/
def get (outcome : Except AxiosError AxiosResponse) : Envelope :=
  match outcome with
  | .ok response => ⟨true, some response.data, none, some response.status, none, none⟩
  | .error e => handleError e

/-- Embedded from ApiService.post; same shape as get. -/
def post (outcome : Except AxiosError AxiosResponse) : Envelope :=
  match outcome with
  | .ok response => ⟨true, some response.data, none, some response.status, none, none⟩
  | .error e => handleError e

/-- Embedded from ApiService.put; same shape as get. -/
def put (outcome : Except AxiosError AxiosResponse) : Envelope :=
  match outcome with
  | .ok response => ⟨true, some response.data, none, some response.status, none, none⟩
  | .error e => handleError e

/-- Embedded from ApiService.delete; same shape as get. -/
def delete (outcome : Except AxiosError AxiosResponse) : Envelope :=
  match outcome with
  | .ok response => ⟨true, some response.data, none, some response.status, none, none⟩
  | .error e => handleError e

end ApiService

/-! ## Concrete fixtures used by witnesses and counterexamples -/

/-- The store after submitting a Positive annotation on demoDB. -/
def annotatedDB : DB :=
  ⟨[⟨0, 100, "sample text", .Annotated, 0⟩], [⟨1, 0, 1, .Positive, 1⟩], [], 2⟩

/-- A store whose sample already reached the terminal Reviewed status,
with the approved annotation kept. -/
def reviewedDB : DB :=
  ⟨[⟨0, 100, "sample text", .Reviewed, 0⟩], [⟨1, 0, 1, .Positive, 0⟩], [], 2⟩

/-- The store reached by the full round-trip scenario. -/
def roundTripDB : DB :=
  ⟨[⟨0, 100, "sample text", .Reviewed, 0⟩],
   [⟨1, 0, 1, .Positive, 1⟩, ⟨3, 0, 1, .Neutral, 3⟩],
   [⟨2, 1, 2, .Rejected, some "needs rework", 2⟩, ⟨4, 3, 2, .Approved, none, 4⟩],
   5⟩

/-- A well-formed unexpired JWT whose payload is
`\x7b"sub":"u1","email":"a@b.c","role":"annotator","exp":99999999999\x7d`. -/
def tokValid : String :=
  "h.eyJzdWIiOiJ1MSIsImVtYWlsIjoiYUBiLmMiLCJyb2xlIjoiYW5ub3RhdG9yIiwiZXhwIjo5OTk5OTk5OTk5OX0.s"

/-- The decoded payload of tokValid. -/
def pValid : Json :=
  .obj [("sub", .str "u1"), ("email", .str "a@b.c"), ("role", .str "annotator"),
        ("exp", .num 99999999999 0)]

/-- The user object getUserFromToken builds from tokValid. -/
def uValid : UserInfo :=
  ⟨some (.str "u1"), .str "a@b.c", .str "annotator"⟩

/-- A well-formed unexpired JWT whose payload is
`\x7b"sub":"u1","exp":99999999999,"email":""\x7d` — the email claim is
present but is the empty string. -/
def tokEmailEmpty : String :=
  "h.eyJzdWIiOiJ1MSIsImV4cCI6OTk5OTk5OTk5OTksImVtYWlsIjoiIn0.s"

/-- The response body `\x7b"detail":""\x7d`: a detail field that is present
but empty. -/
def detailEmptyBody : Json :=
  .obj [("detail", .str "")]

/-- A 422 error response whose detail field is present but empty. -/
def e422 : AxiosError :=
  ⟨some ⟨422, detailEmptyBody⟩, true⟩

/-! ## Helper lemmas about the workflow engine -/

/-- Successful SubmitAnnotation implies its preconditions held and yields
exactly the row creation plus status update of the specification. -/
theorem submitAnnotationTx_ok (db : DB) (sid aid : Nat) (role : Role) (lab : Label)
    (now : Nat) (db' : DB) (a : AnnotationRow)
    (h : submitAnnotationTx db sid aid role lab now = (db', .ok a)) :
    hasCapability role .annotate = true ∧
    ∃ s, findSample db sid = some s ∧ s.status = .Pending ∧
      a = ⟨db.nextId, sid, aid, lab, now⟩ ∧
      db' = { db with
                samples := setStatus db.samples sid .Annotated
                annotations := db.annotations ++ [a]
                nextId := db.nextId + 1 } := by
  simp only [submitAnnotationTx] at h
  split at h
  · rename_i hcap
    split at h
    · simp at h
    · rename_i s hfind
      split at h
      · rename_i hst
        simp only [Prod.mk.injEq, Except.ok.injEq] at h
        obtain ⟨hdb, hrow⟩ := h
        subst hrow
        exact ⟨hcap, s, hfind, hst, rfl, hdb.symm⟩
      · simp at h
  · simp at h

/-- Failing SubmitAnnotation leaves the store unchanged. -/
theorem submitAnnotationTx_error (db : DB) (sid aid : Nat) (role : Role) (lab : Label)
    (now : Nat) (db' : DB) (e : WError)
    (h : submitAnnotationTx db sid aid role lab now = (db', .error e)) :
    db' = db := by
  simp only [submitAnnotationTx] at h
  split at h
  · split at h
    · simp only [Prod.mk.injEq] at h
      exact h.1.symm
    · split at h
      · simp at h
      · simp only [Prod.mk.injEq] at h
        exact h.1.symm
  · simp only [Prod.mk.injEq] at h
    exact h.1.symm

/-- Successful SubmitReview implies its preconditions held and yields
exactly the row creation plus status update of the specification. -/
theorem submitReviewTx_ok (db : DB) (annId actorId : Nat) (role : Role)
    (dec : Decision) (fb : Option String) (now : Nat) (db' : DB) (r : ReviewRow)
    (h : submitReviewTx db annId actorId role dec fb now = (db', .ok r)) :
    hasCapability role .review = true ∧
    ∃ a0 s, findAnnotationRow db annId = some a0 ∧
      findSample db a0.sampleId = some s ∧
      s.status = .Annotated ∧
      ¬(dec = .Rejected ∧ feedbackBlank fb = true) ∧
      r = ⟨db.nextId, annId, actorId, dec, fb, now⟩ ∧
      db' = { db with
                samples := setStatus db.samples a0.sampleId
                  (if dec = .Approved then .Reviewed else .Pending)
                reviews := db.reviews ++ [r]
                nextId := db.nextId + 1 } := by
  simp only [submitReviewTx] at h
  split at h
  · rename_i hcap
    split at h
    · simp at h
    · rename_i a0 hfa
      split at h
      · simp at h
      · rename_i s hfs
        split at h
        · rename_i hst
          split at h
          · simp at h
          · rename_i hval
            simp only [Prod.mk.injEq, Except.ok.injEq] at h
            obtain ⟨hdb, hrow⟩ := h
            subst hrow
            exact ⟨hcap, a0, s, hfa, hfs, hst, by simpa using hval, rfl, hdb.symm⟩
        · simp at h
  · simp at h

/-- Failing SubmitReview leaves the store unchanged. -/
theorem submitReviewTx_error (db : DB) (annId actorId : Nat) (role : Role)
    (dec : Decision) (fb : Option String) (now : Nat) (db' : DB) (e : WError)
    (h : submitReviewTx db annId actorId role dec fb now = (db', .error e)) :
    db' = db := by
  simp only [submitReviewTx] at h
  split at h
  · split at h
    · simp only [Prod.mk.injEq] at h
      exact h.1.symm
    · split at h
      · simp only [Prod.mk.injEq] at h
        exact h.1.symm
      · split at h
        · split at h
          · simp only [Prod.mk.injEq] at h
            exact h.1.symm
          · simp at h
        · simp only [Prod.mk.injEq] at h
          exact h.1.symm
  · simp only [Prod.mk.injEq] at h
    exact h.1.symm

/-- Updating the status of a sample changes exactly the looked-up row. -/
theorem find?_setStatus_self (l : List Sample) (sid : Nat) (st : Status) (s : Sample)
    (h : l.find? (fun x => x.id == sid) = some s) :
    (setStatus l sid st).find? (fun x => x.id == sid) = some { s with status := st } := by
  induction l with
  | nil => simp at h
  | cons a l ih =>
    show List.find? _ ((if a.id == sid then { a with status := st } else a) :: setStatus l sid st) = _
    by_cases ha : (a.id == sid) = true
    · rw [@List.find?_cons_of_pos _ (fun x => x.id == sid) a l ha] at h
      injection h with h'
      subst h'
      rw [if_pos ha]
      exact @List.find?_cons_of_pos _ (fun x => x.id == sid) { a with status := st }
        (setStatus l sid st) ha
    · rw [@List.find?_cons_of_neg _ (fun x => x.id == sid) a l ha] at h
      rw [if_neg ha]
      rw [@List.find?_cons_of_neg _ (fun x => x.id == sid) a (setStatus l sid st) ha]
      exact ih h

/-- Updating the status of one sample does not affect lookups of other
sample ids. -/
theorem find?_setStatus_ne (l : List Sample) (sid : Nat) (st : Status) (j : Nat)
    (hne : j ≠ sid) :
    (setStatus l sid st).find? (fun x => x.id == j) = l.find? (fun x => x.id == j) := by
  induction l with
  | nil => rfl
  | cons a l ih =>
    show List.find? _ ((if a.id == sid then { a with status := st } else a) :: setStatus l sid st) = _
    by_cases ha : (a.id == sid) = true
    · have haid : a.id = sid := by simpa using ha
      have hsj : ¬(sid = j) := fun hh => hne hh.symm
      have haj : ¬((a.id == j) = true) := by simp [haid, hsj]
      rw [if_pos ha]
      rw [@List.find?_cons_of_neg _ (fun x => x.id == j) { a with status := st }
        (setStatus l sid st) haj]
      rw [@List.find?_cons_of_neg _ (fun x => x.id == j) a l haj]
      exact ih
    · rw [if_neg ha]
      by_cases haj : (a.id == j) = true
      · rw [@List.find?_cons_of_pos _ (fun x => x.id == j) a (setStatus l sid st) haj]
        rw [@List.find?_cons_of_pos _ (fun x => x.id == j) a l haj]
      · rw [@List.find?_cons_of_neg _ (fun x => x.id == j) a (setStatus l sid st) haj]
        rw [@List.find?_cons_of_neg _ (fun x => x.id == j) a l haj]
        exact ih

/-- A string append is non-empty when its left part is. -/
theorem append_ne_empty_of_left (s t : String) (h : s ≠ "") : s ++ t ≠ "" := by
  intro he
  apply h
  have hd := congrArg String.data he
  rw [String.data_append] at hd
  exact String.ext (List.append_eq_nil.mp hd).1

/-- The digit list of a natural number is never empty. -/
theorem natDigits_ne_nil (n : Nat) : natDigits n ≠ [] := by
  unfold natDigits
  split
  · simp
  · simp

/-- The decimal representation of a natural number is never empty. -/
theorem natRepr_ne_empty (n : Nat) : natRepr n ≠ "" := by
  intro h
  exact natDigits_ne_nil n (congrArg String.data h)

/-- The decimal representation of an integer is never empty. -/
theorem intRepr_ne_empty (i : Int) : intRepr i ≠ "" := by
  unfold intRepr
  split
  · exact append_ne_empty_of_left _ _ (by decide)
  · exact natRepr_ne_empty _

/-- JSON.stringify of any JSON value is a non-empty string. -/
theorem stringify_ne_empty (j : Json) : stringify j ≠ "" := by
  cases j with
  | null => simp only [stringify]; decide
  | bool b => cases b <;> (simp only [stringify]; decide)
  | num m e =>
    simp only [stringify, decNumRepr]
    exact append_ne_empty_of_left _ _ (intRepr_ne_empty m)
  | str s =>
    simp only [stringify]
    exact append_ne_empty_of_left _ _ (append_ne_empty_of_left _ _ (by decide))
  | arr es =>
    simp only [stringify]
    exact append_ne_empty_of_left _ _ (append_ne_empty_of_left _ _ (by decide))
  | obj fs =>
    simp only [stringify]
    exact append_ne_empty_of_left _ _ (append_ne_empty_of_left _ _ (by decide))

/-- The status-code fallback message is never empty. -/
theorem statusCodeMessage_ne_empty (st : Nat) (data : Json) :
    statusCodeMessage st data ≠ "" := by
  unfold statusCodeMessage
  repeat' split
  all_goals first
    | decide
    | exact append_ne_empty_of_left _ _
        (append_ne_empty_of_left _ _ (append_ne_empty_of_left _ _ (by decide)))

/-- getErrorMessage always produces a non-empty message. -/
theorem getErrorMessage_ne_empty (e : AxiosError) : getErrorMessage e ≠ "" := by
  unfold getErrorMessage
  split
  · split <;> decide
  · rename_i r
    split
    · rename_i d hd
      split
      · rename_i ht
        split
        · simpa [jsTruthy] using ht
        · exact stringify_ne_empty _
      · exact statusCodeMessage_ne_empty _ _
    · exact statusCodeMessage_ne_empty _ _

/-! ## Claim theorems -/

/-- C1: For every sample, the status field changes only along the three
transitions of the workflow state machine — Pending to Annotated on
annotation submission, Annotated to Reviewed on an approving review,
Annotated back to Pending on a rejecting review; failing operations
change no status, other samples are untouched, and the annotation page
fetches only samples with status "pending". -/
theorem status_changes_only_along_workflow :
    (∀ db sid aid role lab now db' a,
        submitAnnotationTx db sid aid role lab now = (db', .ok a) →
        statusOf db sid = some .Pending ∧ statusOf db' sid = some .Annotated ∧
          ∀ j, j ≠ sid → statusOf db' j = statusOf db j) ∧
    (∀ db annId actorId role dec fb now db' r a0,
        submitReviewTx db annId actorId role dec fb now = (db', .ok r) →
        findAnnotationRow db annId = some a0 →
        statusOf db a0.sampleId = some .Annotated ∧
          statusOf db' a0.sampleId = some (if dec = .Approved then .Reviewed else .Pending) ∧
          ∀ j, j ≠ a0.sampleId → statusOf db' j = statusOf db j) ∧
    (∀ db sid aid role lab now db' e,
        submitAnnotationTx db sid aid role lab now = (db', .error e) → db' = db) ∧
    (∀ db annId actorId role dec fb now db' e,
        submitReviewTx db annId actorId role dec fb now = (db', .error e) → db' = db) ∧
    annotationPageFetchEndpoint = "/samples/status/pending" := by
  refine ⟨?_, ?_, submitAnnotationTx_error, submitReviewTx_error, by decide⟩
  · intro db sid aid role lab now db' a h
    obtain ⟨hcap, s, hfind, hst, ha, hdb⟩ := submitAnnotationTx_ok db sid aid role lab now db' a h
    subst hdb
    have hfind' : db.samples.find? (fun x => x.id == sid) = some s := by
      simpa [findSample] using hfind
    refine ⟨by simp [statusOf, hfind, hst], ?_, ?_⟩
    · simp only [statusOf, findSample]
      rw [find?_setStatus_self db.samples sid .Annotated s hfind']
      rfl
    · intro j hj
      simp only [statusOf, findSample]
      rw [find?_setStatus_ne db.samples sid .Annotated j hj]
  · intro db annId actorId role dec fb now db' r a0 h hfa
    obtain ⟨hcap, a1, s, hfa1, hfs, hst, hval, hr, hdb⟩ :=
      submitReviewTx_ok db annId actorId role dec fb now db' r h
    rw [hfa] at hfa1
    injection hfa1 with ha1
    subst ha1
    subst hdb
    have hfind' : db.samples.find? (fun x => x.id == a0.sampleId) = some s := by
      simpa [findSample] using hfs
    refine ⟨by simp [statusOf, hfs, hst], ?_, ?_⟩
    · simp only [statusOf, findSample]
      rw [find?_setStatus_self db.samples a0.sampleId _ s hfind']
      rfl
    · intro j hj
      simp only [statusOf, findSample]
      rw [find?_setStatus_ne db.samples a0.sampleId _ j hj]

/-- Witness for C1: on the demo store the first submission moves sample 0
from Pending to Annotated, an approving review on the annotated store
moves it to Reviewed, and an unrelated sample id is untouched. -/
theorem status_changes_only_along_workflow_witness :
    statusOf demoDB 0 = some Status.Pending ∧
    statusOf annotatedDB 0 = some Status.Annotated ∧
    statusOf annotatedDB 7 = statusOf demoDB 7 :=
  have h := status_changes_only_along_workflow.1 demoDB 0 1 .Annotator .Positive 1
    annotatedDB ⟨1, 0, 1, .Positive, 1⟩ rfl
  ⟨h.1, h.2.1, h.2.2 7 (by decide)⟩

/-- C2: Submitting an annotation for a sample that is not Pending fails
with InvalidState and leaves the store (hence the Annotation table)
unchanged; submitting a review whose owning sample is not Annotated —
including every Reviewed sample, making Reviewed terminal — fails with
InvalidState and leaves the store unchanged. -/
theorem invalid_state_rejections :
    (∀ db sid aid role lab now s,
        hasCapability role .annotate = true →
        findSample db sid = some s →
        s.status ≠ .Pending →
        submitAnnotationTx db sid aid role lab now = (db, .error .InvalidState)) ∧
    (∀ db annId actorId role dec fb now a s,
        hasCapability role .review = true →
        findAnnotationRow db annId = some a →
        findSample db a.sampleId = some s →
        s.status ≠ .Annotated →
        submitReviewTx db annId actorId role dec fb now = (db, .error .InvalidState)) := by
  constructor
  · intro db sid aid role lab now s hcap hfind hst
    simp [submitAnnotationTx, hcap, hfind, hst]
  · intro db annId actorId role dec fb now a s hcap hfa hfs hst
    simp [submitReviewTx, hcap, hfa, hfs, hst]

/-- Witness for C2: on a store whose sample is already Reviewed, both a new
annotation submission and a new review fail with InvalidState and the
store is returned unchanged. -/
theorem invalid_state_rejections_witness :
    submitAnnotationTx reviewedDB 0 5 .Annotator .Positive 9 =
      (reviewedDB, .error .InvalidState) ∧
    submitReviewTx reviewedDB 1 7 .Reviewer .Approved none 9 =
      (reviewedDB, .error .InvalidState) :=
  ⟨invalid_state_rejections.1 reviewedDB 0 5 .Annotator .Positive 9
      ⟨0, 100, "sample text", .Reviewed, 0⟩ (by decide) (by decide) (by decide),
   invalid_state_rejections.2 reviewedDB 1 7 .Reviewer .Approved none 9
      ⟨1, 0, 1, .Positive, 0⟩ ⟨0, 100, "sample text", .Reviewed, 0⟩
      (by decide) (by decide) (by decide) (by decide)⟩

/-- C6: A call by an actor whose role capability set lacks the needed
capability fails with Forbidden and creates no rows, while the
client-side route gating renders the annotation page exactly for the
roles annotator and admin and the review page exactly for the roles
reviewer and admin. -/
theorem forbidden_and_route_gating :
    (∀ db sid aid role lab now,
        hasCapability role .annotate = false →
        submitAnnotationTx db sid aid role lab now = (db, .error .Forbidden)) ∧
    (∀ db annId actorId role dec fb now,
        hasCapability role .review = false →
        submitReviewTx db annId actorId role dec fb now = (db, .error .Forbidden)) ∧
    (∀ c : AuthCtx, c.loading = false → isAuthenticated c = true →
        (protectedRoute c none (some annotationRouteAllowedRoles) = .render ↔
          c.user.bind AuthUser.role = some "annotator" ∨
            c.user.bind AuthUser.role = some "admin")) ∧
    (∀ c : AuthCtx, c.loading = false → isAuthenticated c = true →
        (protectedRoute c none (some reviewRouteAllowedRoles) = .render ↔
          c.user.bind AuthUser.role = some "reviewer" ∨
            c.user.bind AuthUser.role = some "admin")) := by
  refine ⟨?_, ?_, ?_, ?_⟩
  · intro db sid aid role lab now hcap
    simp [submitAnnotationTx, hcap]
  · intro db annId actorId role dec fb now hcap
    simp [submitReviewTx, hcap]
  · intro c hload hauth
    have hsome : c.user.isSome = true := by
      have h2 := hauth
      simp only [isAuthenticated, Bool.and_eq_true] at h2
      exact h2.1
    cases hu : c.user with
    | none => rw [hu] at hsome; simp at hsome
    | some u =>
      have hisnone : c.user.isNone = false := by rw [hu]; rfl
      simp only [protectedRoute, hload, hauth, hisnone, Bool.not_true, Bool.or_self,
        Bool.false_eq_true, if_false, annotationRouteAllowedRoles]
      simp only [hasAnyRole, hu, Option.some_bind, annotationRouteAllowedRoles]
      cases hr : u.role with
      | none => simp
      | some r =>
        by_cases h1 : r = "annotator"
        · simp [h1, List.contains]
        · by_cases h2 : r = "admin"
          · simp [h1, h2, List.contains]
          · simp [h1, h2, List.contains]
  · intro c hload hauth
    have hsome : c.user.isSome = true := by
      have h2 := hauth
      simp only [isAuthenticated, Bool.and_eq_true] at h2
      exact h2.1
    cases hu : c.user with
    | none => rw [hu] at hsome; simp at hsome
    | some u =>
      have hisnone : c.user.isNone = false := by rw [hu]; rfl
      simp only [protectedRoute, hload, hauth, hisnone, Bool.not_true, Bool.or_self,
        Bool.false_eq_true, if_false, reviewRouteAllowedRoles]
      simp only [hasAnyRole, hu, Option.some_bind, reviewRouteAllowedRoles]
      cases hr : u.role with
      | none => simp
      | some r =>
        by_cases h1 : r = "reviewer"
        · simp [h1, List.contains]
        · by_cases h2 : r = "admin"
          · simp [h1, h2, List.contains]
          · simp [h1, h2, List.contains]

/-- Witness for C6: a reviewer cannot submit an annotation and an
annotator cannot submit a review (Forbidden, store unchanged), while an
authenticated annotator context renders the annotation page and an
authenticated reviewer context renders the review page. -/
theorem forbidden_and_route_gating_witness :
    submitAnnotationTx demoDB 0 9 .Reviewer .Positive 0 = (demoDB, .error .Forbidden) ∧
    submitReviewTx demoDB 1 9 .Annotator .Approved none 0 = (demoDB, .error .Forbidden) ∧
    protectedRoute ⟨some ⟨some "annotator"⟩, true, false⟩ none
      (some annotationRouteAllowedRoles) = .render ∧
    protectedRoute ⟨some ⟨some "reviewer"⟩, true, false⟩ none
      (some reviewRouteAllowedRoles) = .render :=
  ⟨forbidden_and_route_gating.1 demoDB 0 9 .Reviewer .Positive 0 (by decide),
   forbidden_and_route_gating.2.1 demoDB 1 9 .Annotator .Approved none 0 (by decide),
   (forbidden_and_route_gating.2.2.1 ⟨some ⟨some "annotator"⟩, true, false⟩ rfl rfl).mpr
     (Or.inl rfl),
   (forbidden_and_route_gating.2.2.2 ⟨some ⟨some "reviewer"⟩, true, false⟩ rfl rfl).mpr
     (Or.inl rfl)⟩

/-- C7: Two submitAnnotation calls racing on the same Pending sample are
serialized by the per-sample transaction; whichever order they commit in,
the first succeeds, the loser gets InvalidState with the store unchanged,
and exactly one Annotation row is created. -/
theorem concurrent_annotations_race :
    ∀ db sid aid1 aid2 role1 role2 lab1 lab2 now1 now2 db1 a1,
      submitAnnotationTx db sid aid1 role1 lab1 now1 = (db1, .ok a1) →
      hasCapability role2 .annotate = true →
      submitAnnotationTx db1 sid aid2 role2 lab2 now2 = (db1, .error .InvalidState) ∧
        db1.annotations.length = db.annotations.length + 1 := by
  intro db sid aid1 aid2 role1 role2 lab1 lab2 now1 now2 db1 a1 h1 hcap2
  obtain ⟨hcap1, s, hfind, hst, ha, hdb⟩ := submitAnnotationTx_ok db sid aid1 role1 lab1 now1 db1 a1 h1
  have hfind' : db.samples.find? (fun x => x.id == sid) = some s := by
    simpa [findSample] using hfind
  subst hdb
  constructor
  · have hfind1 : findSample { db with
        samples := setStatus db.samples sid .Annotated
        annotations := db.annotations ++ [a1]
        nextId := db.nextId + 1 } sid = some { s with status := .Annotated } := by
      simp only [findSample]
      exact find?_setStatus_self db.samples sid .Annotated s hfind'
    simp [submitAnnotationTx, hcap2, hfind1]
  · simp

/-- Witness for C7: on the demo store a second submission racing behind the
first receives InvalidState and only one Annotation row exists. -/
theorem concurrent_annotations_race_witness :
    submitAnnotationTx annotatedDB 0 5 .Annotator .Negative 9 =
      (annotatedDB, .error .InvalidState) ∧
    annotatedDB.annotations.length = demoDB.annotations.length + 1 :=
  concurrent_annotations_race demoDB 0 1 5 .Annotator .Annotator .Positive .Negative 1 9
    annotatedDB ⟨1, 0, 1, .Positive, 1⟩ rfl (by decide)

/-- C3: Rejecting with feedback that is empty or whitespace-only after
trimming fails with ValidationError and creates no Review row; approving
never fails because of missing feedback (for any feedback including
null); the Review page blocks a rejection with blank-trimming feedback
before any API call and sends the rejection otherwise. -/
theorem reject_requires_feedback :
    (∀ db annId actorId role fb now a s,
        hasCapability role .review = true →
        findAnnotationRow db annId = some a →
        findSample db a.sampleId = some s →
        s.status = .Annotated →
        feedbackBlank fb = true →
        submitReviewTx db annId actorId role .Rejected fb now =
          (db, .error .ValidationError)) ∧
    (∀ db annId actorId role fb now a s,
        hasCapability role .review = true →
        findAnnotationRow db annId = some a →
        findSample db a.sampleId = some s →
        s.status = .Annotated →
        ∃ db' r, submitReviewTx db annId actorId role .Approved fb now = (db', .ok r)) ∧
    (∀ selected fb, jsTrim fb = "" → handleReject selected fb = none) ∧
    (∀ annId fb, jsTrim fb ≠ "" →
        handleReject (some annId) fb = some ("/reviews/reject", ⟨annId, some fb⟩)) := by
  refine ⟨?_, ?_, ?_, ?_⟩
  · intro db annId actorId role fb now a s hcap hfa hfs hst hblank
    simp [submitReviewTx, hcap, hfa, hfs, hst, hblank]
  · intro db annId actorId role fb now a s hcap hfa hfs hst
    simp only [submitReviewTx, hcap, if_true, hfa, hfs, hst]
    simp
  · intro selected fb htrim
    cases selected with
    | none => rfl
    | some annId => simp [handleReject, htrim]
  · intro annId fb htrim
    simp [handleReject, rejectRequest, htrim]

/-- Witness for C3: on the annotated store a whitespace-only rejection
fails with ValidationError, an approval with null feedback succeeds, and
the Review page blocks exactly the blank rejection. -/
theorem reject_requires_feedback_witness :
    submitReviewTx annotatedDB 1 2 .Reviewer .Rejected (some "   ") 5 =
      (annotatedDB, .error .ValidationError) ∧
    (∃ db' r, submitReviewTx annotatedDB 1 2 .Reviewer .Approved none 5 = (db', .ok r)) ∧
    handleReject (some "a1") "   " = none ∧
    handleReject (some "a1") "needs rework" =
      some ("/reviews/reject", ⟨"a1", some "needs rework"⟩) :=
  ⟨reject_requires_feedback.1 annotatedDB 1 2 .Reviewer (some "   ") 5
      ⟨1, 0, 1, .Positive, 1⟩ ⟨0, 100, "sample text", .Annotated, 0⟩
      (by decide) (by decide) (by decide) (by decide) (by decide),
   reject_requires_feedback.2.1 annotatedDB 1 2 .Reviewer none 5
      ⟨1, 0, 1, .Positive, 1⟩ ⟨0, 100, "sample text", .Annotated, 0⟩
      (by decide) (by decide) (by decide) (by decide),
   reject_requires_feedback.2.2.1 (some "a1") "   " (by decide),
   reject_requires_feedback.2.2.2 "a1" "needs rework" (by decide)⟩

/-- C5: Starting from a Pending sample, the sequence submitAnnotation,
reject with feedback, submitAnnotation again, approve ends with the
sample terminal at Reviewed, exactly 2 Annotation rows accumulated (the
rejected Positive one kept as history next to the Neutral one) and
exactly 2 Review rows, one Rejected and one Approved. -/
theorem round_trip_scenario :
    roundTripFinal = some roundTripDB ∧
    statusOf roundTripDB 0 = some .Reviewed ∧
    roundTripDB.annotations.length = 2 ∧
    roundTripDB.reviews.length = 2 ∧
    (roundTripDB.reviews.filter (fun r => r.decision == .Rejected)).length = 1 ∧
    (roundTripDB.reviews.filter (fun r => r.decision == .Approved)).length = 1 ∧
    roundTripDB.annotations.map AnnotationRow.label = [.Positive, .Neutral] := by
  exact ⟨by decide, by decide, by decide, by decide, by decide, by decide, by decide⟩

/-- C4: Both workflow operations are atomic: a success performs exactly the
row insertion together with the status transition, a failure returns the
store unchanged, and consequently the data-model invariant — no sample
Annotated without an Annotation, none Reviewed without an approving
Review — is preserved by every call. -/
theorem atomic_creation_and_transition :
    (∀ db sid aid role lab now db' res,
        submitAnnotationTx db sid aid role lab now = (db', res) →
        Inv db → Inv db') ∧
    (∀ db annId actorId role dec fb now db' res,
        submitReviewTx db annId actorId role dec fb now = (db', res) →
        Inv db → Inv db') ∧
    (∀ db sid aid role lab now db' a,
        submitAnnotationTx db sid aid role lab now = (db', .ok a) →
        db'.annotations = db.annotations ++ [a] ∧ db'.reviews = db.reviews ∧
          statusOf db' sid = some .Annotated) ∧
    (∀ db annId actorId role dec fb now db' r,
        submitReviewTx db annId actorId role dec fb now = (db', .ok r) →
        db'.reviews = db.reviews ++ [r] ∧ db'.annotations = db.annotations) ∧
    (∀ db sid aid role lab now db' e,
        submitAnnotationTx db sid aid role lab now = (db', .error e) → db' = db) ∧
    (∀ db annId actorId role dec fb now db' e,
        submitReviewTx db annId actorId role dec fb now = (db', .error e) → db' = db) := by
  refine ⟨?_, ?_, ?_, ?_, submitAnnotationTx_error, submitReviewTx_error⟩
  · intro db sid aid role lab now db' res h hinv
    cases res with
    | error e =>
      rw [submitAnnotationTx_error db sid aid role lab now db' e h]
      exact hinv
    | ok a =>
      obtain ⟨hcap, s, hfind, hst, ha, hdb⟩ := submitAnnotationTx_ok db sid aid role lab now db' a h
      subst ha
      subst hdb
      intro s' hs'
      simp only [setStatus] at hs'
      obtain ⟨s0, hs0, hf⟩ := List.mem_map.mp hs'
      by_cases h0 : (s0.id == sid) = true
      · rw [if_pos h0] at hf
        subst hf
        have hid : s0.id = sid := by simpa using h0
        constructor
        · intro _
          exact ⟨⟨db.nextId, sid, aid, lab, now⟩,
            List.mem_append.mpr (Or.inr (by simp)), by simp [hid]⟩
        · intro hstR
          simp at hstR
      · rw [if_neg h0] at hf
        subst hf
        constructor
        · intro hstA
          obtain ⟨aa, haa, hsid⟩ := (hinv s0 hs0).1 hstA
          exact ⟨aa, List.mem_append.mpr (Or.inl haa), hsid⟩
        · intro hstR
          obtain ⟨aa, haa, rr, hrr, hc⟩ := (hinv s0 hs0).2 hstR
          exact ⟨aa, List.mem_append.mpr (Or.inl haa), rr, hrr, hc⟩
  · intro db annId actorId role dec fb now db' res h hinv
    cases res with
    | error e =>
      rw [submitReviewTx_error db annId actorId role dec fb now db' e h]
      exact hinv
    | ok r =>
      obtain ⟨hcap, a0, s, hfa, hfs, hst, hval, hr, hdb⟩ :=
        submitReviewTx_ok db annId actorId role dec fb now db' r h
      subst hr
      subst hdb
      have hfa' : db.annotations.find? (fun x => x.id == annId) = some a0 := by
        simpa [findAnnotationRow] using hfa
      have ha0mem : a0 ∈ db.annotations := List.mem_of_find?_eq_some hfa'
      have ha0id : a0.id = annId := by
        simpa using @List.find?_some _ (fun x => x.id == annId) a0 db.annotations hfa'
      intro s' hs'
      simp only [setStatus] at hs'
      obtain ⟨s0, hs0, hf⟩ := List.mem_map.mp hs'
      by_cases h0 : (s0.id == a0.sampleId) = true
      · have hid : s0.id = a0.sampleId := by simpa using h0
        rw [if_pos h0] at hf
        subst hf
        constructor
        · intro hstA
          cases dec <;> simp at hstA
        · intro hstR
          cases dec with
          | Approved =>
            refine ⟨a0, ha0mem,
              ⟨db.nextId, annId, actorId, .Approved, fb, now⟩,
              List.mem_append.mpr (Or.inr (by simp)), by simp [hid], by simp [ha0id], rfl⟩
          | Rejected => simp at hstR
      · rw [if_neg h0] at hf
        subst hf
        constructor
        · intro hstA
          obtain ⟨aa, haa, hsid⟩ := (hinv s0 hs0).1 hstA
          exact ⟨aa, haa, hsid⟩
        · intro hstR
          obtain ⟨aa, haa, rr, hrr, hc⟩ := (hinv s0 hs0).2 hstR
          exact ⟨aa, haa, rr, List.mem_append.mpr (Or.inl hrr), hc⟩
  · intro db sid aid role lab now db' a h
    obtain ⟨hcap, s, hfind, hst, ha, hdb⟩ := submitAnnotationTx_ok db sid aid role lab now db' a h
    subst hdb
    have hfind' : db.samples.find? (fun x => x.id == sid) = some s := by
      simpa [findSample] using hfind
    refine ⟨rfl, rfl, ?_⟩
    simp only [statusOf, findSample]
    rw [find?_setStatus_self db.samples sid .Annotated s hfind']
    rfl
  · intro db annId actorId role dec fb now db' r h
    obtain ⟨hcap, a0, s, hfa, hfs, hst, hval, hr, hdb⟩ :=
      submitReviewTx_ok db annId actorId role dec fb now db' r h
    subst hdb
    exact ⟨rfl, rfl⟩

/-- Witness for C4: the invariant holds of the demo store and is carried to
the annotated store by the first submission, which appended exactly one
Annotation row and created no Review row. -/
theorem atomic_creation_and_transition_witness :
    Inv annotatedDB ∧
    annotatedDB.annotations = demoDB.annotations ++ [⟨1, 0, 1, .Positive, 1⟩] ∧
    annotatedDB.reviews = demoDB.reviews :=
  ⟨atomic_creation_and_transition.1 demoDB 0 1 .Annotator .Positive 1 annotatedDB
      (.ok ⟨1, 0, 1, .Positive, 1⟩) rfl (by simp [Inv, demoDB]),
   (atomic_creation_and_transition.2.2.1 demoDB 0 1 .Annotator .Positive 1 annotatedDB
      ⟨1, 0, 1, .Positive, 1⟩ rfl).1,
   (atomic_creation_and_transition.2.2.1 demoDB 0 1 .Annotator .Positive 1 annotatedDB
      ⟨1, 0, 1, .Positive, 1⟩ rfl).2.1⟩

/-- C8 counterexample: on a token whose payload carries the email claim as
the empty string, getUserFromToken returns an object whose email field is
null, not the present claim value — refuting "email and role fields are
the corresponding claims or null when those claims are absent" at this
input, since the claim is present yet the field is null. -/
theorem getUserFromToken_email_counterexample :
    getUserFromToken (some tokEmailEmpty) 0 =
      some ⟨some (Json.str "u1"), Json.null, Json.null⟩ ∧
    (decodeToken (some tokEmailEmpty)).bind (fun p => jsGet p "email") =
      some (Json.str "") ∧
    Json.null ≠ Json.str "" :=
  ⟨rfl, rfl, fun h => Json.noConfusion h⟩

/-- C8 (amended): getUserFromToken returns null whenever the token does not
decode or is expired (isTokenExpired treats a missing exp claim as
expired); whenever it returns an object, that object's id is the sub
claim, and its email and role fields are the corresponding claims when
those are truthy and null when they are absent or falsy (for example an
empty string). -/
theorem getUserFromToken_spec :
    ∀ t now,
      ((decodeToken t = none ∨ isTokenExpired t now = true) →
        getUserFromToken t now = none) ∧
      (∀ u p, getUserFromToken t now = some u → decodeToken t = some p →
        u.id = jsGet p "sub" ∧ u.email = orNull (jsGet p "email") ∧
          u.role = orNull (jsGet p "role") ∧ isTokenExpired t now = false) := by
  intro t now
  constructor
  · intro h
    cases h with
    | inl h => simp [getUserFromToken, h]
    | inr h =>
      cases hd : decodeToken t with
      | none => simp [getUserFromToken, hd]
      | some p => simp [getUserFromToken, hd, h]
  · intro u p hu hp
    simp only [getUserFromToken, hp] at hu
    by_cases he : isTokenExpired t now = true
    · rw [if_pos he] at hu
      cases hu
    · rw [if_neg he] at hu
      injection hu with hu'
      subst hu'
      exact ⟨rfl, rfl, rfl, by simpa using he⟩

/-- Witness for C8 (amended): on a valid unexpired token the built user
carries the sub, email and role claims, and an expired token yields
null. -/
theorem getUserFromToken_spec_witness :
    uValid.id = jsGet pValid "sub" ∧
    uValid.email = orNull (jsGet pValid "email") ∧
    uValid.role = orNull (jsGet pValid "role") ∧
    isTokenExpired (some tokValid) 1700000000000 = false ∧
    getUserFromToken (some "h.eyJzdWIiOiJ1MyIsImV4cCI6MX0.s") 1700000000000 = none :=
  have h2 := (getUserFromToken_spec (some tokValid) 1700000000000).2 uValid pValid rfl rfl
  ⟨h2.1, h2.2.1, h2.2.2.1, h2.2.2.2,
    (getUserFromToken_spec (some "h.eyJzdWIiOiJ1MyIsImV4cCI6MX0.s") 1700000000000).1
      (Or.inr rfl)⟩

/-- C9: decodeToken is total — every exception is caught — and returns null
for a missing token, for the empty token, and for any token without
exactly three dot-separated parts; with exactly three parts it returns
exactly the result of decoding the middle part as base64url-encoded JSON
(null again when that decoding fails). -/
theorem decodeToken_total_spec :
    decodeToken none = none ∧
    decodeToken (some "") = none ∧
    (∀ t : String, (jsSplit '.' t).length ≠ 3 → decodeToken (some t) = none) ∧
    (∀ t h p s, jsSplit '.' t = [h, p, s] → decodeToken (some t) = base64UrlToJson p) := by
  refine ⟨rfl, rfl, ?_, ?_⟩
  · intro t hlen
    by_cases ht : t = ""
    · subst ht; rfl
    · simp only [decodeToken]
      rw [if_neg ht]
      split
      · rename_i x y z heq
        exact absurd (by rw [heq]; rfl) hlen
      · rfl
  · intro t hh p s hs
    have ht : t ≠ "" := by
      intro h0
      subst h0
      have hl := congrArg List.length hs
      rw [show jsSplit '.' "" = [""] from rfl] at hl
      simp at hl
    simp only [decodeToken]
    rw [if_neg ht, hs]

/-- Witness for C9: a two-part token decodes to null, and on a well-formed
token decodeToken equals the decoding of its middle part. -/
theorem decodeToken_total_spec_witness :
    decodeToken (some "a.b") = none ∧
    decodeToken (some tokValid) = base64UrlToJson
      "eyJzdWIiOiJ1MSIsImVtYWlsIjoiYUBiLmMiLCJyb2xlIjoiYW5ub3RhdG9yIiwiZXhwIjo5OTk5OTk5OTk5OX0" :=
  ⟨decodeToken_total_spec.2.2.1 "a.b" (by decide),
   decodeToken_total_spec.2.2.2 tokValid "h"
     "eyJzdWIiOiJ1MSIsImVtYWlsIjoiYUBiLmMiLCJyb2xlIjoiYW5ub3RhdG9yIiwiZXhwIjo5OTk5OTk5OTk5OX0"
     "s" (by decide)⟩

/-- C10 counterexample: a 422 response whose detail field is present but is
the empty string.  The claim says the error message is the detail field
when present, yet the envelope carries the fixed 422 message instead of
the present (empty) detail. -/
theorem apiService_detail_counterexample :
    jsGet detailEmptyBody "detail" = some (Json.str "") ∧
    ApiService.post (.error e422) =
      ⟨false, none, some "Validation error. Please check your input.",
        some 422, some false, some false⟩ ∧
    "Validation error. Please check your input." ≠ "" :=
  ⟨rfl, rfl, by decide⟩

/-- C10 (amended): every ApiService method returns an envelope instead of
raising: on success, success true with the data and status; on error,
success false with a non-empty message that is the detail field when that
field is present and truthy (non-string details are stringified),
otherwise the fixed per-status message, plus the response status code or
null for network errors. -/
theorem apiService_envelope_spec :
    (∀ r : AxiosResponse,
      ApiService.get (.ok r) = ⟨true, some r.data, none, some r.status, none, none⟩ ∧
      ApiService.post (.ok r) = ⟨true, some r.data, none, some r.status, none, none⟩ ∧
      ApiService.put (.ok r) = ⟨true, some r.data, none, some r.status, none, none⟩ ∧
      ApiService.delete (.ok r) = ⟨true, some r.data, none, some r.status, none, none⟩) ∧
    (∀ e : AxiosError,
      ApiService.get (.error e) = handleError e ∧
      ApiService.post (.error e) = handleError e ∧
      ApiService.put (.error e) = handleError e ∧
      ApiService.delete (.error e) = handleError e ∧
      (handleError e).success = false ∧
      (handleError e).error = some (getErrorMessage e) ∧
      getErrorMessage e ≠ "" ∧
      (handleError e).status = e.response.map AxiosResponse.status ∧
      (e.response = none → (handleError e).status = none) ∧
      (∀ r d, e.response = some r → jsGet r.data "detail" = some d →
        jsTruthy d = true →
        getErrorMessage e = (match d with | .str s => s | _ => stringify d)) ∧
      (∀ r, e.response = some r → jsGet r.data "detail" = none →
        getErrorMessage e = statusCodeMessage r.status r.data) ∧
      (∀ r d, e.response = some r → jsGet r.data "detail" = some d →
        jsTruthy d = false →
        getErrorMessage e = statusCodeMessage r.status r.data)) := by
  constructor
  · intro r
    exact ⟨rfl, rfl, rfl, rfl⟩
  · intro e
    refine ⟨rfl, rfl, rfl, rfl, rfl, rfl, getErrorMessage_ne_empty e, rfl, ?_, ?_, ?_, ?_⟩
    · intro hr
      simp [handleError, hr]
    · intro r d hr hd ht
      unfold getErrorMessage
      rw [hr]
      simp only [hd]
      rw [if_pos ht]
    · intro r hr hd
      unfold getErrorMessage
      rw [hr]
      simp only [hd]
    · intro r d hr hd ht
      unfold getErrorMessage
      rw [hr]
      simp only [hd]
      rw [if_neg (by simp [ht])]

/-- Witness for C10 (amended): a 200 response yields the success envelope
and the falsy-detail 422 error yields the failure envelope with the fixed
message, the status code, and a non-empty message. -/
theorem apiService_envelope_spec_witness :
    ApiService.get (.ok ⟨200, Json.null⟩) =
      ⟨true, some Json.null, none, some 200, none, none⟩ ∧
    ApiService.post (.error e422) = handleError e422 ∧
    getErrorMessage e422 ≠ "" ∧
    (handleError e422).status = some 422 ∧
    getErrorMessage e422 = statusCodeMessage 422 detailEmptyBody :=
  ⟨(apiService_envelope_spec.1 ⟨200, Json.null⟩).1,
   (apiService_envelope_spec.2 e422).2.1,
   (apiService_envelope_spec.2 e422).2.2.2.2.2.2.1,
   (apiService_envelope_spec.2 e422).2.2.2.2.2.2.2.1,
   (apiService_envelope_spec.2 e422).2.2.2.2.2.2.2.2.2.2.2 ⟨422, detailEmptyBody⟩
     (Json.str "") rfl rfl rfl⟩

end AnnotPlatform
